import Mathlib

/-!
Verification of the date/time normalization and chronological sorting core of
the leadscrm repository.

The core under verification is the pair of data-access modules (the two
`googleSheetsApi` revisions, here `Part000` and `Part001`): parsing of
heterogeneous date and time encodings, combination into a sortable timestamp,
chronological sorting, display formatting, and lead filtering.

Modeling conventions for the JavaScript runtime:

* A JS `Date` object is its ECMAScript time value: epoch milliseconds as an
  unbounded `Int` (real JS uses doubles, exact for this range).
* The runtime's local timezone is a fixed offset `tz` in minutes east of UTC,
  passed explicitly to every function that reads or builds local fields.
  Daylight-saving transitions are not modeled: the offset is constant.
* Calendar/day-number conversions implement the ECMAScript `MakeDay` /
  field-extraction semantics via the standard era-based civil-calendar
  algorithms, with floor division (`Int` `/` and `%` here are Euclidean,
  which agree with floor for the positive constant divisors used).
* JS strings are Lean `String`s; all character processing happens on the
  underlying character list.  JS falsiness of a string is emptiness.
* `parseInt` on the digit-only strings admitted by the source's regexes is a
  decimal digit fold; `Number.prototype.toString` is decimal rendering.
* `new Date(string)` is modeled by the ECMAScript Date Time String Format
  (date `YYYY[-MM[-DD]]`, optional time `HH:MM[:SS[.sss]]`, optional trailing
  `Z`); a string with a time part but no `Z` is interpreted in local time,
  all other accepted forms in UTC.  Implementation-defined fallback parsing of
  any other format is modeled as failure (`none`), matching the major engines
  on every input used in a theorem below.
* Functions that can return `null` return `Option`; total functions model the
  source's non-throwing behavior.
-/

namespace LeadsCrm

/-- Decimal value of a digit-character list, most significant first: the
behavior of JS `parseInt(s, 10)` on an all-digit string. -/
def digitsToNat (cs : List Char) : Nat :=
  cs.foldl (fun a c => 10 * a + (c.toNat - 48)) 0

/-- The character for a decimal digit value below ten. -/
def digitChar (n : Nat) : Char :=
  if n = 0 then '0' else if n = 1 then '1' else if n = 2 then '2'
  else if n = 3 then '3' else if n = 4 then '4' else if n = 5 then '5'
  else if n = 6 then '6' else if n = 7 then '7' else if n = 8 then '8'
  else if n = 9 then '9' else '*'

/-- Fuel-bounded digit expansion; the fuel only bounds the recursion depth
(structural recursion keeps the function kernel-reducible). -/
def natDigitsAux (fuel n : Nat) : List Char :=
  match fuel with
  | 0 => []
  | f + 1 =>
    if n < 10 then [digitChar n]
    else natDigitsAux f (n / 10) ++ [digitChar (n % 10)]

/-- Decimal digits of a natural number, most significant first: the behavior
of JS `Number.prototype.toString` on a nonnegative integer (`n + 1` is always
enough fuel, since a number has at most `n + 1` digits). -/
def natDigits (n : Nat) : List Char := natDigitsAux (n + 1) n

/-- Decimal rendering of a JS number holding an integer. -/
def intRepr (n : Int) : List Char :=
  if n < 0 then '-' :: natDigits n.natAbs else natDigits n.toNat

/-- JS `String.prototype.padStart(2, "0")` on a character list. -/
def padTwo (cs : List Char) : List Char :=
  if cs.length < 2 then List.replicate (2 - cs.length) '0' ++ cs else cs

/-- Every character is a decimal digit. -/
def allDigits (cs : List Char) : Bool := cs.all Char.isDigit

/-- JS `String.prototype.split(sep)` on a character list: the chunks between
separator occurrences (never empty; `n` separators yield `n + 1` chunks). -/
def splitOnChar (sep : Char) : List Char → List (List Char)
  | [] => [[]]
  | c :: cs =>
    match splitOnChar sep cs with
    | [] => [[c]]
    | p :: ps => if c = sep then [] :: p :: ps else (c :: p) :: ps

/-- Inverse of `splitOnChar`: re-join chunks with the separator between them. -/
def joinSep (sep : Char) : List (List Char) → List Char
  | [] => []
  | [p] => p
  | p :: ps => p ++ sep :: joinSep sep ps

/-- ASCII lowercasing, as JS `toLowerCase` on the ASCII names the repository
compares. -/
def lowerList (cs : List Char) : List Char := cs.map Char.toLower

/-- Whether the first list begins with the second. -/
def beginsWith : List Char → List Char → Bool
  | _, [] => true
  | [], _ :: _ => false
  | a :: as, b :: bs => a = b && beginsWith as bs

/-- JS `String.prototype.includes`: the needle occurs contiguously in the
haystack. -/
def containsSub (hay needle : List Char) : Bool :=
  match hay with
  | [] => beginsWith [] needle
  | c :: t => beginsWith (c :: t) needle || containsSub t needle

/-- Gregorian leap year. -/
def isLeap (y : Int) : Bool := y % 4 == 0 && (y % 100 != 0 || y % 400 == 0)

/-- Number of days in a month (month `1`..`12`). -/
def daysInMonth (y m : Int) : Int :=
  if m == 2 then (if isLeap y then 29 else 28)
  else if m == 4 || m == 6 || m == 9 || m == 11 then 30
  else 31

/-- Day number (days since 1970-01-01) of a civil date with month in `1`..`12`
and arbitrary day (days beyond the month roll over linearly, as in ECMAScript
`MakeDay`).  Era-based civil-calendar algorithm. -/
def daysFromCivil (y m d : Int) : Int :=
  let y' := if m ≤ 2 then y - 1 else y
  let era := y' / 400
  let yoe := y' - era * 400
  let doy := (153 * (if m > 2 then m - 3 else m + 9) + 2) / 5 + d - 1
  let doe := yoe * 365 + yoe / 4 - yoe / 100 + doy
  era * 146097 + doe - 719468

/-- Civil date (year, month `1`..`12`, day) of a day number: inverse of
`daysFromCivil`, the ECMAScript `YearFromTime`/`MonthFromTime`/`DateFromTime`
field extraction. -/
def civilFromDays (z0 : Int) : Int × Int × Int :=
  let z := z0 + 719468
  let era := z / 146097
  let doe := z - era * 146097
  let yoe := (doe - doe / 1460 + doe / 36524 - doe / 146096) / 365
  let y := yoe + era * 400
  let doy := doe - (365 * yoe + yoe / 4 - yoe / 100)
  let mp := (5 * doy + 2) / 153
  let d := doy - (153 * mp + 2) / 5 + 1
  let m := if mp < 10 then mp + 3 else mp - 9
  (if m ≤ 2 then y + 1 else y, m, d)

/-- ECMAScript `MakeDay` with a zero-based month: out-of-range months roll
into the year, out-of-range days roll linearly. -/
def makeDay (y m0 d : Int) : Int :=
  daysFromCivil (y + m0 / 12) (m0 % 12 + 1) d

/-- ECMAScript `Date` constructor year rule (`MakeFullYear`): integer years
`0`..`99` denote `1900`..`1999`. -/
def fixupYear (y : Int) : Int := if 0 ≤ y ∧ y ≤ 99 then 1900 + y else y

/-- Time value of `new Date(y, m0, d, h, mi, s, ms)` built from local fields
(month `m0` zero-based), for local offset `tz` minutes east of UTC. -/
def mkDateLocal (tz y m0 d h mi s ms : Int) : Int :=
  makeDay (fixupYear y) m0 d * 86400000
    + h * 3600000 + mi * 60000 + s * 1000 + ms - tz * 60000

/-- Local civil date (year, month `1`..`12`, day) of a time value. -/
def localCivil (tz t : Int) : Int × Int × Int :=
  civilFromDays ((t + tz * 60000) / 86400000)

/-- JS `Date.prototype.getFullYear`. -/
def getFullYear (tz t : Int) : Int := (localCivil tz t).1

/-- JS `Date.prototype.getMonth` (zero-based). -/
def getMonth (tz t : Int) : Int := (localCivil tz t).2.1 - 1

/-- JS `Date.prototype.getDate` (day of month). -/
def getDate (tz t : Int) : Int := (localCivil tz t).2.2

/-- JS `Date.prototype.getUTCHours`. -/
def getUTCHours (t : Int) : Int := t % 86400000 / 3600000

/-- JS `Date.prototype.getUTCMinutes`. -/
def getUTCMinutes (t : Int) : Int := t % 3600000 / 60000

/-- JS `Date.prototype.getUTCSeconds`. -/
def getUTCSeconds (t : Int) : Int := t % 60000 / 1000

/-- JS `date.setHours(h, mi, s, ms)`: replace the local time-of-day fields,
keeping the local calendar day. -/
def setHoursMs (tz t h mi s ms : Int) : Int :=
  (t + tz * 60000) / 86400000 * 86400000
    + h * 3600000 + mi * 60000 + s * 1000 + ms - tz * 60000

/-- JS `date.setHours(h, mi, s)` with no milliseconds argument: the stored
millisecond field is kept. -/
def setHoursKeepMs (tz t h mi s : Int) : Int :=
  setHoursMs tz t h mi s ((t + tz * 60000) % 1000)

/-- Exactly `n` digit characters, giving their decimal value. -/
def fixedDigits (cs : List Char) (n : Nat) : Option Nat :=
  if cs.length == n && allDigits cs then some (digitsToNat cs) else none

/-- Date portion `YYYY[-MM[-DD]]` of an ECMAScript date-time string:
year, month, day (month and day default to `1`; out-of-range field values
make the string invalid). -/
def parseIsoDate (cs : List Char) : Option (Int × Int × Int) :=
  match splitOnChar '-' cs with
  | [ys] =>
    match fixedDigits ys 4 with
    | some y => some ((y : Int), 1, 1)
    | none => none
  | [ys, mos] =>
    match fixedDigits ys 4, fixedDigits mos 2 with
    | some y, some m =>
      if 1 ≤ m ∧ m ≤ 12 then some ((y : Int), (m : Int), 1) else none
    | _, _ => none
  | [ys, mos, dys] =>
    match fixedDigits ys 4, fixedDigits mos 2, fixedDigits dys 2 with
    | some y, some m, some d =>
      if 1 ≤ m ∧ m ≤ 12 ∧ 1 ≤ d ∧ (d : Int) ≤ daysInMonth (y : Int) (m : Int) then
        some ((y : Int), (m : Int), (d : Int))
      else none
    | _, _, _ => none
  | _ => none

/-- Time portion `HH:MM[:SS[.sss]]` of an ECMAScript date-time string:
hours, minutes, seconds, milliseconds. -/
def parseIsoTime (cs : List Char) : Option (Int × Int × Int × Int) :=
  match splitOnChar ':' cs with
  | [hs, mins] =>
    match fixedDigits hs 2, fixedDigits mins 2 with
    | some h, some mi =>
      if h ≤ 23 ∧ mi ≤ 59 then some ((h : Int), (mi : Int), 0, 0) else none
    | _, _ => none
  | [hs, mins, ss] =>
    match fixedDigits hs 2, fixedDigits mins 2 with
    | some h, some mi =>
      if h ≤ 23 ∧ mi ≤ 59 then
        match splitOnChar '.' ss with
        | [sec] =>
          match fixedDigits sec 2 with
          | some s => if s ≤ 59 then some ((h : Int), (mi : Int), (s : Int), 0) else none
          | none => none
        | [sec, msp] =>
          match fixedDigits sec 2, fixedDigits msp 3 with
          | some s, some ms =>
            if s ≤ 59 then some ((h : Int), (mi : Int), (s : Int), (ms : Int)) else none
          | _, _ => none
        | _ => none
      else none
    | _, _ => none
  | _ => none

/-- ECMAScript `new Date(string)` on the Date Time String Format, as a time
value.  A trailing `Z` marks UTC; a date-time without it is local; a date-only
form is UTC.  Any other format is invalid (`none`). -/
def parseDateString (tz : Int) (cs : List Char) : Option Int :=
  match splitOnChar 'T' cs with
  | [ds] =>
    match parseIsoDate ds with
    | some (y, m, d) => some (daysFromCivil y m d * 86400000)
    | none => none
  | [ds, ts] =>
    let utc := ts.getLast? == some 'Z'
    let body := if utc then ts.dropLast else ts
    match parseIsoDate ds, parseIsoTime body with
    | some (y, m, d), some (h, mi, s, ms) =>
      some (daysFromCivil y m d * 86400000 + h * 3600000 + mi * 60000 + s * 1000 + ms
        - (if utc then 0 else tz * 60000))
    | _, _ => none
  | _ => none

/-- A normalized lead record (output of `normalizeLead`): all fields are
strings; `date` and `time` are kept as separate opaque strings. -/
structure Lead where
  id : String
  name : String
  projectName : String
  phoneNumber : String
  date : String
  time : String
deriving DecidableEq

/-- An hour/minute/second triple as produced by the time parsers. -/
structure ClockTime where
  hours : Int
  minutes : Int
  seconds : Int
deriving DecidableEq

/-- Search criteria for `filterLeads`: `searchName` and `project` are strings
(empty when unset), `date` is the `Date` object from the calendar picker or
`null`. -/
structure Filters where
  searchName : String
  project : String
  date : Option Int
deriving DecidableEq

/-- Match of the regex `^\d{1,2}\/\d{1,2}\/\d{4}$` with the subsequent
`split('/')` and `parseInt` calls: day, month, year values.  (A string matches
the regex exactly when splitting on `/` yields three all-digit chunks of
lengths 1-2, 1-2 and 4.) -/
def ddmmyyyyParts (cs : List Char) : Option (Nat × Nat × Nat) :=
  match splitOnChar '/' cs with
  | [dp, mp, yp] =>
    if (dp.length == 1 || dp.length == 2) && (mp.length == 1 || mp.length == 2)
        && yp.length == 4 && allDigits dp && allDigits mp && allDigits yp then
      some (digitsToNat dp, digitsToNat mp, digitsToNat yp)
    else none
  | _ => none

/-- Match of the regex `^\d{4}-\d{2}-\d{2}$` with split and `parseInt`:
year, month, day values. -/
def yyyymmddParts (cs : List Char) : Option (Nat × Nat × Nat) :=
  match splitOnChar '-' cs with
  | [yp, mp, dp] =>
    if yp.length == 4 && mp.length == 2 && dp.length == 2
        && allDigits yp && allDigits mp && allDigits dp then
      some (digitsToNat yp, digitsToNat mp, digitsToNat dp)
    else none
  | _ => none

/-- Match of the regex `^\d{1,2}:\d{2}(:\d{2})?$` with split and `parseInt`
(`parts[2] || '0'` defaults missing seconds to zero): hours, minutes,
seconds values. -/
def hhmmssParts (cs : List Char) : Option (Nat × Nat × Nat) :=
  match splitOnChar ':' cs with
  | [hp, mp] =>
    if (hp.length == 1 || hp.length == 2) && mp.length == 2
        && allDigits hp && allDigits mp then
      some (digitsToNat hp, digitsToNat mp, 0)
    else none
  | [hp, mp, sp] =>
    if (hp.length == 1 || hp.length == 2) && mp.length == 2 && sp.length == 2
        && allDigits hp && allDigits mp && allDigits sp then
      some (digitsToNat hp, digitsToNat mp, digitsToNat sp)
    else none
  | _ => none

/-- Strict `DD/MM/YYYY`: exactly two-digit day and month, four-digit year of
value at least 1000, denoting an existing calendar date. -/
def isStrictDdMmYyyy (cs : List Char) : Bool :=
  match splitOnChar '/' cs with
  | [dp, mp, yp] =>
    dp.length == 2 && mp.length == 2 && yp.length == 4
      && allDigits dp && allDigits mp && allDigits yp
      && decide (1000 ≤ digitsToNat yp)
      && decide (1 ≤ digitsToNat mp) && decide (digitsToNat mp ≤ 12)
      && decide (1 ≤ digitsToNat dp)
      && decide ((digitsToNat dp : Int)
          ≤ daysInMonth (digitsToNat yp : Int) (digitsToNat mp : Int))
  | _ => false

namespace Part001

/-- `parseDate` of the later revision: `DD/MM/YYYY` literally as local fields,
then `YYYY-MM-DD` literally as local fields, then generic `new Date(dateStr)`
truncated to the local calendar date (the source's branch for strings
containing `T` and its final generic branch both build `new Date(dateStr)`
and truncate identically, so their composition is the single match below).
Returns the `Date` time value or `none` for `null`. -/
def parseDate (tz : Int) (dateStr : String) : Option Int :=
  let cs := dateStr.toList
  if cs.isEmpty then none
  else
    match ddmmyyyyParts cs with
    | some (d, m, y) => some (mkDateLocal tz (y : Int) ((m : Int) - 1) (d : Int) 0 0 0 0)
    | none =>
      match yyyymmddParts cs with
      | some (y, m, d) => some (mkDateLocal tz (y : Int) ((m : Int) - 1) (d : Int) 0 0 0 0)
      | none =>
        match parseDateString tz cs with
        | some t =>
          some (mkDateLocal tz (getFullYear tz t) (getMonth tz t) (getDate tz t) 0 0 0 0)
        | none => none

/-- `parseTime` of the later revision: `HH:MM[:SS]` literally, else an ISO
datetime string read through its UTC fields, else `none`. -/
def parseTime (tz : Int) (timeStr : String) : Option ClockTime :=
  let cs := timeStr.toList
  if cs.isEmpty then none
  else
    match hhmmssParts cs with
    | some (h, mi, s) => some ⟨(h : Int), (mi : Int), (s : Int)⟩
    | none =>
      if cs.contains 'T' then
        match parseDateString tz cs with
        | some t => some ⟨getUTCHours t, getUTCMinutes t, getUTCSeconds t⟩
        | none => none
      else none

/-- `createSortableTimestamp`: combine date and time into a single timestamp
for sorting; an invalid date yields the sentinel `0`. -/
def createSortableTimestamp (tz : Int) (dateStr timeStr : String) : Int :=
  match parseDate tz dateStr with
  | none => 0
  | some date =>
    match parseTime tz timeStr with
    | some tm => setHoursMs tz date tm.hours tm.minutes tm.seconds 0
    | none => date

/-- `sortLeadsByDateTime`: ascending stable sort by combined timestamp.
ES2019 `Array.prototype.sort` with the comparator
`createSortableTimestamp(a) - createSortableTimestamp(b)` is a stable sort by
that key, modeled by `List.mergeSort`. -/
def sortLeadsByDateTime (tz : Int) (leads : List Lead) : List Lead :=
  leads.mergeSort fun a b =>
    decide (createSortableTimestamp tz a.date a.time ≤ createSortableTimestamp tz b.date b.time)

/-- `formatDate` of the later revision: `DD/MM/YYYY` with two-digit padded day
and month; the placeholder `-` for an empty or unparseable input. -/
def formatDate (tz : Int) (dateStr : String) : String :=
  if dateStr.toList.isEmpty then "-"
  else
    match parseDate tz dateStr with
    | none => "-"
    | some date =>
      String.mk (padTwo (intRepr (getDate tz date)) ++ '/' ::
        padTwo (intRepr (getMonth tz date + 1)) ++ '/' :: intRepr (getFullYear tz date))

/-- `formatTime` of the later revision: `HH:MM` without seconds; the
placeholder `-` for an empty or unparseable input. -/
def formatTime (tz : Int) (timeStr : String) : String :=
  if timeStr.toList.isEmpty then "-"
  else
    match parseTime tz timeStr with
    | none => "-"
    | some tm =>
      String.mk (padTwo (intRepr tm.hours) ++ ':' :: padTwo (intRepr tm.minutes))

/-- One lead's filter predicate of the later revision, mirroring the source's
early returns: case-insensitive name substring, exact project match with the
`all` sentinel, exact local calendar-date match (a lead whose date does not
parse is rejected when a date filter is set). -/
def leadPasses (tz : Int) (filters : Filters) (lead : Lead) : Bool :=
  if filters.searchName.toList.isEmpty = false
      ∧ containsSub (lowerList lead.name.toList) (lowerList filters.searchName.toList) = false then
    false
  else if filters.project.toList.isEmpty = false ∧ filters.project ≠ "all"
      ∧ lead.projectName ≠ filters.project then
    false
  else
    match filters.date with
    | none => true
    | some fd =>
      match parseDate tz lead.date with
      | some ld =>
        if getFullYear tz ld ≠ getFullYear tz fd ∨ getMonth tz ld ≠ getMonth tz fd
            ∨ getDate tz ld ≠ getDate tz fd then
          false
        else true
      | none => false

/-- `filterLeads` of the later revision. -/
def filterLeads (tz : Int) (leads : List Lead) (filters : Filters) : List Lead :=
  leads.filter (leadPasses tz filters)

end Part001

namespace Part000

/-- `parseDate` of the earlier revision: `DD/MM/YYYY` literally as local
fields, else generic `new Date(dateStr)` WITHOUT truncation (the embedded
time-of-day is kept). -/
def parseDate (tz : Int) (dateStr : String) : Option Int :=
  let cs := dateStr.toList
  if cs.isEmpty then none
  else
    match ddmmyyyyParts cs with
    | some (d, m, y) => some (mkDateLocal tz (y : Int) ((m : Int) - 1) (d : Int) 0 0 0 0)
    | none => parseDateString tz cs

/-- `extractTimeComponents` of the earlier revision.  For the string-typed
`time` fields of normalized leads the source's `instanceof Date` branch is
unreachable, and the remaining logic coincides with the later revision's
`parseTime`: `HH:MM[:SS]` literally, else an ISO datetime string read through
its UTC fields. -/
def extractTimeComponents (tz : Int) (timeStr : String) : Option ClockTime :=
  let cs := timeStr.toList
  if cs.isEmpty then none
  else
    match hhmmssParts cs with
    | some (h, mi, s) => some ⟨(h : Int), (mi : Int), (s : Int)⟩
    | none =>
      if cs.contains 'T' then
        match parseDateString tz cs with
        | some t => some ⟨getUTCHours t, getUTCMinutes t, getUTCSeconds t⟩
        | none => none
      else none

/-- `parseDateTime`: combine date and time for sorting; an invalid date yields
the sentinel `0`.  The source's `date.setHours(h, m, s)` keeps the stored
millisecond field. -/
def parseDateTime (tz : Int) (dateStr timeStr : String) : Int :=
  match parseDate tz dateStr with
  | none => 0
  | some date =>
    match extractTimeComponents tz timeStr with
    | some tm => setHoursKeepMs tz date tm.hours tm.minutes tm.seconds
    | none => date

/-- `sortLeadsByDateTime` of the earlier revision: ascending stable sort by
`parseDateTime`, modeled by `List.mergeSort` (ES2019 sort is stable). -/
def sortLeadsByDateTime (tz : Int) (leads : List Lead) : List Lead :=
  leads.mergeSort fun a b =>
    decide (parseDateTime tz a.date a.time ≤ parseDateTime tz b.date b.time)

/-- `formatDate` of the earlier revision: `DD/MM/YYYY`; the placeholder `-`
only for an EMPTY input — a non-empty unparseable input is echoed back. -/
def formatDate (tz : Int) (dateStr : String) : String :=
  if dateStr.toList.isEmpty then "-"
  else
    match parseDate tz dateStr with
    | none => dateStr
    | some date =>
      String.mk (padTwo (intRepr (getDate tz date)) ++ '/' ::
        padTwo (intRepr (getMonth tz date + 1)) ++ '/' :: intRepr (getFullYear tz date))

/-- `formatTime` of the earlier revision: `HH:MM:SS` with seconds; the
placeholder `-` only for an EMPTY input — a non-empty unparseable input is
echoed back. -/
def formatTime (tz : Int) (timeStr : String) : String :=
  if timeStr.toList.isEmpty then "-"
  else
    match extractTimeComponents tz timeStr with
    | none => timeStr
    | some tm =>
      String.mk (padTwo (intRepr tm.hours) ++ ':' :: padTwo (intRepr tm.minutes)
        ++ ':' :: padTwo (intRepr tm.seconds))

/-- One lead's filter predicate of the earlier revision.  The date criterion
compares the template strings `y-m-d` built from local fields (month
zero-based), and a lead whose own date fails to parse PASSES a set date filter
(the source only rejects when both dates parsed and the strings differ). -/
def leadPasses (tz : Int) (filters : Filters) (lead : Lead) : Bool :=
  if filters.searchName.toList.isEmpty = false
      ∧ containsSub (lowerList lead.name.toList) (lowerList filters.searchName.toList) = false then
    false
  else if filters.project.toList.isEmpty = false ∧ filters.project ≠ "all"
      ∧ lead.projectName ≠ filters.project then
    false
  else
    match filters.date with
    | none => true
    | some fd =>
      match parseDate tz lead.date with
      | some ld =>
        let leadDateStr := intRepr (getFullYear tz ld) ++ '-' ::
          intRepr (getMonth tz ld) ++ '-' :: intRepr (getDate tz ld)
        let filterDateStr := intRepr (getFullYear tz fd) ++ '-' ::
          intRepr (getMonth tz fd) ++ '-' :: intRepr (getDate tz fd)
        if leadDateStr ≠ filterDateStr then false else true
      | none => true

/-- `filterLeads` of the earlier revision. -/
def filterLeads (tz : Int) (leads : List Lead) (filters : Filters) : List Lead :=
  leads.filter (leadPasses tz filters)

end Part000

/-! ### Calendar arithmetic lemmas -/

/-- Year-of-era recovery inside one 400-year era: the quotient computed by
`civilFromDays` returns the year of era, given a valid day of the (March-based)
shifted year. -/
theorem yoeRec (yoe doy : Int) (h1 : 0 ≤ yoe) (h2 : yoe ≤ 399) (h3 : 0 ≤ doy)
    (h4 : doy ≤ 364 ∨ (doy = 365 ∧ (yoe + 1) % 4 = 0 ∧ ((yoe + 1) % 100 ≠ 0 ∨ yoe + 1 = 400))) :
    (365 * yoe + yoe / 4 - yoe / 100 + doy
      - (365 * yoe + yoe / 4 - yoe / 100 + doy) / 1460
      + (365 * yoe + yoe / 4 - yoe / 100 + doy) / 36524
      - (365 * yoe + yoe / 4 - yoe / 100 + doy) / 146096) / 365 = yoe := by
  have h7 : doy ≤ 365 := by omega
  set c := yoe / 100 with hc
  set yc := yoe % 100 with hyc
  set a := yc / 4 with ha
  set r := yc % 4 with hr
  have h5 : yoe = 100 * c + yc := by omega
  have h6 : yc = 4 * a + r := by omega
  have hbc : 0 ≤ c ∧ c ≤ 3 := by omega
  have hba : 0 ≤ a ∧ a ≤ 24 := by omega
  have hbr : 0 ≤ r ∧ r ≤ 3 := by omega
  have hq4 : yoe / 4 = 25 * c + a := by omega
  set doe := 365 * yoe + yoe / 4 - yoe / 100 + doy with hdoe
  have hdoe2 : doe = 36524 * c + 1461 * a + 365 * r + doy := by omega
  have hA : (24 * c + a + 365 * r + doy < 1460 ∧ doe / 1460 = 25 * c + a) ∨
      (1460 ≤ 24 * c + a + 365 * r + doy ∧ doe / 1460 = 25 * c + a + 1) := by omega
  have hB : doe / 36524 = c ∨ (doe / 36524 = c + 1 ∧ a = 24 ∧ r = 3 ∧ doy = 365) := by omega
  have hC : doe / 146096 = 0 ∨
      (doe / 146096 = 1 ∧ c = 3 ∧ a = 24 ∧ r = 3 ∧ doy = 365) := by omega
  rcases h4 with h4 | h4 <;> rcases hA with hA | hA <;> rcases hB with hB | hB <;>
    rcases hC with hC | hC <;> omega

set_option maxHeartbeats 4000000 in
/-- The field extraction `civilFromDays` inverts the day-number computation
`daysFromCivil` on every existing civil date. -/
theorem civilFromDays_daysFromCivil (y m d : Int) (h1 : 1 ≤ m) (h2 : m ≤ 12)
    (h3 : 1 ≤ d) (h4 : d ≤ daysInMonth y m) :
    civilFromDays (daysFromCivil y m d) = (y, m, d) := by
  unfold daysFromCivil civilFromDays
  dsimp only
  set y' := (if m ≤ 2 then y - 1 else y) with hy'
  set era := y' / 400 with hera
  set yoe := y' - era * 400 with hyoe
  have hyoe0 : 0 ≤ yoe ∧ yoe ≤ 399 := by constructor <;> omega
  set doy := (153 * (if m > 2 then m - 3 else m + 9) + 2) / 5 + d - 1 with hdoy
  have hdoyb : 0 ≤ doy ∧ doy ≤ 365 := by
    rw [hdoy]
    split_ifs with hm
    · have hub : (153 * (m - 3) + 2) / 5 ≤ 275 := by omega
      have hlb : 0 ≤ (153 * (m - 3) + 2) / 5 := by omega
      have hd : d ≤ 31 := by
        have h4' := h4
        unfold daysInMonth at h4'
        split_ifs at h4' <;> omega
      constructor <;> omega
    · have hfe : m = 1 ∨ m = 2 := by omega
      have hFeb : m = 2 → d ≤ 29 := by
        intro hm2
        subst hm2
        unfold daysInMonth at h4
        norm_num at h4
        split_ifs at h4 <;> omega
      have hJan : m = 1 → d ≤ 31 := by
        intro hm1
        subst hm1
        unfold daysInMonth at h4
        norm_num at h4
        omega
      rcases hfe with hfe | hfe <;> subst hfe <;> norm_num <;> omega
  set doe := yoe * 365 + yoe / 4 - yoe / 100 + doy with hdoe
  have hdoeb : 0 ≤ doe ∧ doe ≤ 146096 := by constructor <;> omega
  have hz : era * 146097 + doe - 719468 + 719468 = era * 146097 + doe := by ring
  rw [hz]
  have hera2 : (era * 146097 + doe) / 146097 = era := by omega
  rw [hera2]
  have hdoe3 : era * 146097 + doe - era * 146097 = doe := by ring
  rw [hdoe3]
  have hleap : doy ≤ 364 ∨
      (doy = 365 ∧ (yoe + 1) % 4 = 0 ∧ ((yoe + 1) % 100 ≠ 0 ∨ yoe + 1 = 400)) := by
    by_cases hm : m > 2
    · left
      rw [hdoy]
      rw [if_pos hm]
      have hub : (153 * (m - 3) + 2) / 5 ≤ 275 := by omega
      have hd : d ≤ 31 := by
        have h4' := h4
        unfold daysInMonth at h4'
        split_ifs at h4' <;> omega
      omega
    · have hfe : m = 1 ∨ m = 2 := by omega
      rcases hfe with hfe | hfe
      · left
        subst hfe
        unfold daysInMonth at h4
        norm_num at h4
        rw [hdoy]
        norm_num
        omega
      · subst hfe
        unfold daysInMonth at h4
        norm_num at h4
        rw [hdoy]
        norm_num
        have hyrel : y = era * 400 + yoe + 1 := by
          have h5 : y' = y - 1 := by rw [hy']; norm_num
          omega
        by_cases hL : isLeap y = true
        · rw [if_pos hL] at h4
          unfold isLeap at hL
          simp only [Bool.and_eq_true, beq_iff_eq, Bool.or_eq_true, bne_iff_ne, ne_eq] at hL
          by_cases hd : d ≤ 28
          · left; omega
          · right
            refine ⟨by omega, by omega, ?_⟩
            rcases hL.2 with hL2 | hL2
            · left; omega
            · right; omega
        · rw [if_neg hL] at h4
          left; omega
  have hyoe2 : (doe - doe / 1460 + doe / 36524 - doe / 146096) / 365 = yoe := by
    have hrr := yoeRec yoe doy hyoe0.1 hyoe0.2 hdoyb.1 hleap
    have hcomm : doe = 365 * yoe + yoe / 4 - yoe / 100 + doy := by rw [hdoe]; ring
    rw [hcomm]
    exact hrr
  rw [hyoe2]
  have hdoy2 : doe - (365 * yoe + yoe / 4 - yoe / 100) = doy := by omega
  rw [hdoy2]
  have hclose : ∀ mpv mv : Int, (5 * doy + 2) / 153 = mpv →
      (if mpv < 10 then mpv + 3 else mpv - 9) = mv → mv = m →
      (if mv ≤ 2 then y' = y - 1 else y' = y) →
      doy - (153 * mpv + 2) / 5 + 1 = d →
      ((if (if (5 * doy + 2) / 153 < 10 then (5 * doy + 2) / 153 + 3
            else (5 * doy + 2) / 153 - 9) ≤ 2 then yoe + era * 400 + 1 else yoe + era * 400),
        (if (5 * doy + 2) / 153 < 10 then (5 * doy + 2) / 153 + 3
            else (5 * doy + 2) / 153 - 9),
        doy - (153 * ((5 * doy + 2) / 153) + 2) / 5 + 1) = (y, m, d) := by
    intro mpv mv hmp hmv hm hyy hd
    rw [hmp, hmv, hm]
    simp only [Prod.mk.injEq]
    split_ifs at hyy ⊢ with hc1 <;> exact ⟨by omega, by trivial, hd⟩
  have hd31 : d ≤ 31 := by
    have h4' := h4
    unfold daysInMonth at h4'
    split_ifs at h4' <;> omega
  interval_cases m
  · refine hclose 10 1 ?_ (by norm_num) rfl (by rw [hy']; norm_num) ?_
    · have hdj : doy = 306 + d - 1 := by rw [hdoy]; norm_num
      omega
    · have hdj : doy = 306 + d - 1 := by rw [hdoy]; norm_num
      norm_num
      omega
  · have hd29 : d ≤ 29 := by
      have h4' := h4
      unfold daysInMonth at h4'
      norm_num at h4'
      split_ifs at h4' <;> omega
    have hdj : doy = 337 + d - 1 := by rw [hdoy]; norm_num
    refine hclose 11 2 (by omega) (by norm_num) rfl (by rw [hy']; norm_num) (by norm_num; omega)
  · have hdj : doy = 0 + d - 1 := by rw [hdoy]; norm_num
    refine hclose 0 3 (by omega) (by norm_num) rfl (by rw [hy']; norm_num) (by norm_num; omega)
  · have hd30 : d ≤ 30 := by
      have h4' := h4
      unfold daysInMonth at h4'
      norm_num at h4'
      omega
    have hdj : doy = 31 + d - 1 := by rw [hdoy]; norm_num
    refine hclose 1 4 (by omega) (by norm_num) rfl (by rw [hy']; norm_num) (by norm_num; omega)
  · have hdj : doy = 61 + d - 1 := by rw [hdoy]; norm_num
    refine hclose 2 5 (by omega) (by norm_num) rfl (by rw [hy']; norm_num) (by norm_num; omega)
  · have hd30 : d ≤ 30 := by
      have h4' := h4
      unfold daysInMonth at h4'
      norm_num at h4'
      omega
    have hdj : doy = 92 + d - 1 := by rw [hdoy]; norm_num
    refine hclose 3 6 (by omega) (by norm_num) rfl (by rw [hy']; norm_num) (by norm_num; omega)
  · have hdj : doy = 122 + d - 1 := by rw [hdoy]; norm_num
    refine hclose 4 7 (by omega) (by norm_num) rfl (by rw [hy']; norm_num) (by norm_num; omega)
  · have hdj : doy = 153 + d - 1 := by rw [hdoy]; norm_num
    refine hclose 5 8 (by omega) (by norm_num) rfl (by rw [hy']; norm_num) (by norm_num; omega)
  · have hd30 : d ≤ 30 := by
      have h4' := h4
      unfold daysInMonth at h4'
      norm_num at h4'
      omega
    have hdj : doy = 184 + d - 1 := by rw [hdoy]; norm_num
    refine hclose 6 9 (by omega) (by norm_num) rfl (by rw [hy']; norm_num) (by norm_num; omega)
  · have hdj : doy = 214 + d - 1 := by rw [hdoy]; norm_num
    refine hclose 7 10 (by omega) (by norm_num) rfl (by rw [hy']; norm_num) (by norm_num; omega)
  · have hd30 : d ≤ 30 := by
      have h4' := h4
      unfold daysInMonth at h4'
      norm_num at h4'
      omega
    have hdj : doy = 245 + d - 1 := by rw [hdoy]; norm_num
    refine hclose 8 11 (by omega) (by norm_num) rfl (by rw [hy']; norm_num) (by norm_num; omega)
  · have hdj : doy = 275 + d - 1 := by rw [hdoy]; norm_num
    refine hclose 9 12 (by omega) (by norm_num) rfl (by rw [hy']; norm_num) (by norm_num; omega)


/-! ### Character, digit-string, and split lemmas -/

theorem char_toNat_inj (c c' : Char) (h : c.toNat = c'.toNat) : c = c' :=
  Char.ext (UInt32.ext (by simpa [Char.toNat] using h))

theorem isDigit_bounds (c : Char) (h : c.isDigit = true) : 48 ≤ c.toNat ∧ c.toNat ≤ 57 := by
  simp [Char.isDigit] at h
  exact ⟨h.1, h.2⟩

theorem digitChar_toNat (n : Nat) (h : n < 10) : (digitChar n).toNat = 48 + n := by
  interval_cases n <;> decide

theorem digitChar_eq_self (c : Char) (h : c.isDigit = true) : digitChar (c.toNat - 48) = c := by
  have hb := isDigit_bounds c h
  apply char_toNat_inj
  rw [digitChar_toNat _ (by omega)]
  omega

theorem digitsToNat_one (a : Char) : digitsToNat [a] = a.toNat - 48 := by
  simp [digitsToNat]

theorem digitsToNat_two (a b : Char) :
    digitsToNat [a, b] = 10 * (a.toNat - 48) + (b.toNat - 48) := by
  simp [digitsToNat]

theorem digitsToNat_four (a b c d : Char) :
    digitsToNat [a, b, c, d]
      = 1000 * (a.toNat - 48) + 100 * (b.toNat - 48) + 10 * (c.toNat - 48) + (d.toNat - 48) := by
  simp [digitsToNat]
  ring

theorem natDigitsAux_small (f n : Nat) (hf : 1 ≤ f) (h : n < 10) :
    natDigitsAux f n = [digitChar n] := by
  cases f with
  | zero => omega
  | succ f => simp [natDigitsAux, h]

theorem natDigitsAux_step (f n : Nat) (h : ¬ n < 10) :
    natDigitsAux (f + 1) n = natDigitsAux f (n / 10) ++ [digitChar (n % 10)] := by
  simp [natDigitsAux, h]

theorem natDigits_small (n : Nat) (h : n < 10) : natDigits n = [digitChar n] :=
  natDigitsAux_small (n + 1) n (by omega) h

theorem natDigits_double (n : Nat) (h1 : 10 ≤ n) (h2 : n < 100) :
    natDigits n = [digitChar (n / 10), digitChar (n % 10)] := by
  unfold natDigits
  rw [natDigitsAux_step _ _ (by omega)]
  rw [natDigitsAux_small n (n / 10) (by omega) (by omega)]
  rfl

theorem natDigits_quad (n : Nat) (h1 : 1000 ≤ n) (h2 : n < 10000) :
    natDigits n
      = [digitChar (n / 1000), digitChar (n / 100 % 10),
         digitChar (n / 10 % 10), digitChar (n % 10)] := by
  obtain ⟨f, rfl⟩ : ∃ f, n = f + 4 := ⟨n - 4, by omega⟩
  unfold natDigits
  rw [natDigitsAux_step _ _ (by omega)]
  rw [show f + 4 = f + 3 + 1 from rfl, natDigitsAux_step _ _ (by omega)]
  rw [show f + 3 = f + 2 + 1 from rfl, natDigitsAux_step _ _ (by omega)]
  rw [natDigitsAux_small _ _ (by omega) (by omega)]
  have e1 : (f + 4) / 10 / 10 = (f + 4) / 100 := by omega
  have e2 : (f + 4) / 100 / 10 = (f + 4) / 1000 := by omega
  rw [e1, e2]
  rfl

theorem padTwo_natDigits_two (cs : List Char) (h2 : cs.length = 2)
    (hd : ∀ c ∈ cs, c.isDigit = true) :
    padTwo (natDigits (digitsToNat cs)) = cs := by
  obtain ⟨a, b, rfl⟩ := List.length_eq_two.mp h2
  have ha := hd a (by simp)
  have hb := hd b (by simp)
  have hba := isDigit_bounds a ha
  have hbb := isDigit_bounds b hb
  rw [digitsToNat_two]
  by_cases hz : a.toNat - 48 = 0
  · have hv : 10 * (a.toNat - 48) + (b.toNat - 48) = b.toNat - 48 := by omega
    have ha0 : a = '0' := by
      apply char_toNat_inj
      have h48 : ('0' : Char).toNat = 48 := by decide
      omega
    rw [hv, natDigits_small _ (by omega), digitChar_eq_self b hb]
    subst ha0
    rfl
  · rw [natDigits_double _ (by omega) (by omega)]
    have e1 : (10 * (a.toNat - 48) + (b.toNat - 48)) / 10 = a.toNat - 48 := by omega
    have e2 : (10 * (a.toNat - 48) + (b.toNat - 48)) % 10 = b.toNat - 48 := by omega
    rw [e1, e2, digitChar_eq_self a ha, digitChar_eq_self b hb]
    unfold padTwo
    norm_num

theorem natDigits_digitsToNat_four (cs : List Char) (h4 : cs.length = 4)
    (hd : ∀ c ∈ cs, c.isDigit = true) (hv : 1000 ≤ digitsToNat cs) :
    natDigits (digitsToNat cs) = cs := by
  match cs, h4 with
  | [a, b, c, d], _ =>
    have ha := hd a (by simp)
    have hb := hd b (by simp)
    have hc := hd c (by simp)
    have hdd := hd d (by simp)
    have hba := isDigit_bounds a ha
    have hbb := isDigit_bounds b hb
    have hbc := isDigit_bounds c hc
    have hbd := isDigit_bounds d hdd
    rw [digitsToNat_four] at hv ⊢
    rw [natDigits_quad _ hv (by omega)]
    have e1 : (1000 * (a.toNat - 48) + 100 * (b.toNat - 48) + 10 * (c.toNat - 48)
        + (d.toNat - 48)) / 1000 = a.toNat - 48 := by omega
    have e2 : (1000 * (a.toNat - 48) + 100 * (b.toNat - 48) + 10 * (c.toNat - 48)
        + (d.toNat - 48)) / 100 % 10 = b.toNat - 48 := by omega
    have e3 : (1000 * (a.toNat - 48) + 100 * (b.toNat - 48) + 10 * (c.toNat - 48)
        + (d.toNat - 48)) / 10 % 10 = c.toNat - 48 := by omega
    have e4 : (1000 * (a.toNat - 48) + 100 * (b.toNat - 48) + 10 * (c.toNat - 48)
        + (d.toNat - 48)) % 10 = d.toNat - 48 := by omega
    rw [e1, e2, e3, e4]
    rw [digitChar_eq_self a ha, digitChar_eq_self b hb, digitChar_eq_self c hc,
      digitChar_eq_self d hdd]

theorem splitOnChar_ne_nil (sep : Char) (cs : List Char) : splitOnChar sep cs ≠ [] := by
  induction cs with
  | nil => simp [splitOnChar]
  | cons c cs ih =>
    unfold splitOnChar
    cases h : splitOnChar sep cs with
    | nil => simp
    | cons p ps =>
      dsimp
      split_ifs <;> simp

theorem joinSep_cons (sep c : Char) (p : List Char) (ps : List (List Char)) :
    joinSep sep ((c :: p) :: ps) = c :: joinSep sep (p :: ps) := by
  cases ps <;> rfl

theorem joinSep_splitOnChar (sep : Char) (cs : List Char) :
    joinSep sep (splitOnChar sep cs) = cs := by
  induction cs with
  | nil => rfl
  | cons c cs ih =>
    unfold splitOnChar
    cases h : splitOnChar sep cs with
    | nil => exact absurd h (splitOnChar_ne_nil sep cs)
    | cons p ps =>
      rw [h] at ih
      dsimp
      split_ifs with hc
      · subst hc
        simpa [joinSep] using ih
      · rw [joinSep_cons, ih]

/-- Rendering a natural number cast to `Int`. -/
theorem intRepr_natCast (n : Nat) : intRepr (n : Int) = natDigits n := by
  unfold intRepr
  rw [if_neg (by omega)]
  simp


/-! ### Strict date-string evaluation (for the parse/format roundtrip) -/

theorem allDigits_mem (cs : List Char) (h : allDigits cs = true) :
    ∀ c ∈ cs, c.isDigit = true := by
  intro c hc
  unfold allDigits at h
  exact List.all_eq_true.mp h c hc

theorem list_isEmpty_false (cs : List Char) (h : cs ≠ []) : cs.isEmpty = false := by
  cases cs with
  | nil => exact absurd rfl h
  | cons a t => rfl

set_option maxHeartbeats 1000000 in
theorem strict_formatDate_id (tz : Int) (s : String)
    (h : isStrictDdMmYyyy s.toList = true) :
    Part001.formatDate tz s = s ∧ Part000.formatDate tz s = s := by
  obtain ⟨dp, mp, yp, hsp⟩ : ∃ dp mp yp, splitOnChar '/' s.toList = [dp, mp, yp] := by
    unfold isStrictDdMmYyyy at h
    rcases hq : splitOnChar '/' s.toList with _ | ⟨p1, _ | ⟨p2, _ | ⟨p3, _ | ⟨p4, ps⟩⟩⟩⟩ <;>
      rw [hq] at h
    · simp at h
    · simp at h
    · simp at h
    · exact ⟨p1, p2, p3, rfl⟩
    · simp at h
  unfold isStrictDdMmYyyy at h
  rw [hsp] at h
  simp only [Bool.and_eq_true, beq_iff_eq, decide_eq_true_eq] at h
  obtain ⟨⟨⟨⟨⟨⟨⟨⟨⟨hd2, hm2⟩, hy4⟩, hdd⟩, hdm⟩, hdy⟩, hy1000⟩, hm1⟩, hm12⟩, hd1⟩ := h.1
  have hdim := h.2
  set dN := digitsToNat dp with hdN
  set mN := digitsToNat mp with hmN
  set yN := digitsToNat yp with hyN
  have hne : s.toList ≠ [] := by
    intro hnil
    rw [hnil] at hsp
    simp [splitOnChar] at hsp
  have hemp : s.toList.isEmpty = false := list_isEmpty_false _ hne
  have hpp : ddmmyyyyParts s.toList = some (dN, mN, yN) := by
    unfold ddmmyyyyParts
    rw [hsp]
    simp [hd2, hm2, hy4, hdd, hdm, hdy]
  set D := daysFromCivil (yN : Int) (mN : Int) (dN : Int) with hD
  have hmk : mkDateLocal tz (yN : Int) ((mN : Int) - 1) (dN : Int) 0 0 0 0
      = D * 86400000 - tz * 60000 := by
    unfold mkDateLocal makeDay fixupYear
    rw [if_neg (by omega)]
    have e1 : ((mN : Int) - 1) / 12 = 0 := by omega
    have e2 : ((mN : Int) - 1) % 12 + 1 = (mN : Int) := by omega
    rw [e1, e2]
    rw [hD]
    ring_nf
  have hciv : civilFromDays D = ((yN : Int), (mN : Int), (dN : Int)) :=
    civilFromDays_daysFromCivil _ _ _ (by omega) (by omega) (by omega) hdim
  have hloc : localCivil tz (D * 86400000 - tz * 60000) = ((yN : Int), (mN : Int), (dN : Int)) := by
    unfold localCivil
    have e : (D * 86400000 - tz * 60000 + tz * 60000) / 86400000 = D := by
      have e0 : D * 86400000 - tz * 60000 + tz * 60000 = D * 86400000 := by ring
      rw [e0]
      exact Int.mul_ediv_cancel _ (by norm_num)
    rw [e]
    exact hciv
  have hgd : getDate tz (D * 86400000 - tz * 60000) = (dN : Int) := by
    unfold getDate
    rw [hloc]
  have hgm : getMonth tz (D * 86400000 - tz * 60000) = (mN : Int) - 1 := by
    unfold getMonth
    rw [hloc]
  have hgy : getFullYear tz (D * 86400000 - tz * 60000) = (yN : Int) := by
    unfold getFullYear
    rw [hloc]
  have hout : padTwo (intRepr (dN : Int)) ++ '/' ::
      padTwo (intRepr ((mN : Int) - 1 + 1)) ++ '/' :: intRepr (yN : Int) = s.toList := by
    have em : (mN : Int) - 1 + 1 = (mN : Int) := by ring
    rw [em, intRepr_natCast, intRepr_natCast, intRepr_natCast]
    rw [padTwo_natDigits_two dp hd2 (allDigits_mem dp hdd)]
    rw [padTwo_natDigits_two mp hm2 (allDigits_mem mp hdm)]
    rw [natDigits_digitsToNat_four yp hy4 (allDigits_mem yp hdy) hy1000]
    have hj := joinSep_splitOnChar '/' s.toList
    rw [hsp] at hj
    simpa [joinSep] using hj
  have hp1 : Part001.parseDate tz s = some (D * 86400000 - tz * 60000) := by
    unfold Part001.parseDate
    dsimp only
    rw [hemp, hpp]
    simp only [Bool.false_eq_true, if_false]
    rw [hmk]
  have hp0 : Part000.parseDate tz s = some (D * 86400000 - tz * 60000) := by
    unfold Part000.parseDate
    dsimp only
    rw [hemp, hpp]
    simp only [Bool.false_eq_true, if_false]
    rw [hmk]
  constructor
  · unfold Part001.formatDate
    rw [hemp, hp1]
    simp only [Bool.false_eq_true, if_false]
    rw [hgd, hgm, hgy, hout]
    rfl
  · unfold Part000.formatDate
    rw [hemp, hp0]
    simp only [Bool.false_eq_true, if_false]
    rw [hgd, hgm, hgy, hout]
    rfl


/-! ### Stable sort-by-key lemmas and time-component bounds -/

theorem keyLe_trans (key : Lead → Int) :
    ∀ a b c : Lead, decide (key a ≤ key b) = true → decide (key b ≤ key c) = true →
      decide (key a ≤ key c) = true := by
  intro a b c hab hbc
  simp only [decide_eq_true_eq] at *
  omega

theorem keyLe_total (key : Lead → Int) :
    ∀ a b : Lead, (decide (key a ≤ key b) || decide (key b ≤ key a)) = true := by
  intro a b
  simp only [Bool.or_eq_true, decide_eq_true_eq]
  omega

theorem mergeSortKey_pairwise (key : Lead → Int) (l : List Lead) :
    (l.mergeSort fun a b => decide (key a ≤ key b)).Pairwise fun a b => key a ≤ key b := by
  have hs := @List.sorted_mergeSort Lead (fun a b => decide (key a ≤ key b))
    (keyLe_trans key) (keyLe_total key) l
  exact hs.imp (by intro a b hab; simpa using hab)

theorem mergeSortKey_idem (key : Lead → Int) (l : List Lead) :
    ((l.mergeSort fun a b => decide (key a ≤ key b)).mergeSort
      fun a b => decide (key a ≤ key b)) = l.mergeSort fun a b => decide (key a ≤ key b) :=
  List.mergeSort_of_sorted (List.sorted_mergeSort (keyLe_trans key) (keyLe_total key) l)

theorem mergeSortKey_filter (key : Lead → Int) (l : List Lead) (k : Int) :
    (l.mergeSort fun a b => decide (key a ≤ key b)).filter (fun x => decide (key x = k))
      = l.filter fun x => decide (key x = k) := by
  set le : Lead → Lead → Bool := fun a b => decide (key a ≤ key b) with hle
  set p : Lead → Bool := fun x => decide (key x = k) with hp
  have hmem : ∀ a ∈ l.filter p, key a = k := by
    intro a ha
    have h2 := (List.mem_filter.mp ha).2
    rw [hp] at h2
    simpa using h2
  have hpair : (l.filter p).Pairwise fun a b => le a b = true := by
    rw [List.pairwise_iff_forall_sublist]
    intro a b hs
    have ha : a ∈ l.filter p := hs.subset (by simp)
    have hb : b ∈ l.filter p := hs.subset (by simp)
    rw [hle]
    simp [hmem a ha, hmem b hb]
  have hsub : (l.filter p).Sublist (l.mergeSort le) :=
    List.sublist_mergeSort (by rw [hle]; exact keyLe_trans key)
      (by rw [hle]; exact keyLe_total key) hpair (List.filter_sublist l)
  have hfid : (l.filter p).filter p = l.filter p :=
    List.filter_eq_self.mpr fun a ha => (List.mem_filter.mp ha).2
  have hsub2 : (l.filter p).Sublist ((l.mergeSort le).filter p) := by
    have h1 := List.Sublist.filter p hsub
    rwa [hfid] at h1
  have hperm : ((l.mergeSort le).filter p).Perm (l.filter p) :=
    (List.mergeSort_perm l le).filter p
  exact (hsub2.eq_of_length hperm.length_eq.symm).symm

theorem digitsToNat_le_two (cs : List Char) (h1 : cs.length = 1 ∨ cs.length = 2)
    (hd : allDigits cs = true) : digitsToNat cs ≤ 99 := by
  rcases h1 with h1 | h1
  · obtain ⟨a, rfl⟩ := List.length_eq_one.mp h1
    have ha := isDigit_bounds a (allDigits_mem _ hd a (by simp))
    rw [digitsToNat_one]
    omega
  · obtain ⟨a, b, rfl⟩ := List.length_eq_two.mp h1
    have ha := isDigit_bounds a (allDigits_mem _ hd a (by simp))
    have hb := isDigit_bounds b (allDigits_mem _ hd b (by simp))
    rw [digitsToNat_two]
    omega

theorem hhmmssParts_bounds (cs : List Char) (h mi s : Nat)
    (hp : hhmmssParts cs = some (h, mi, s)) : h ≤ 99 ∧ mi ≤ 99 ∧ s ≤ 99 := by
  unfold hhmmssParts at hp
  rcases hq : splitOnChar ':' cs with _ | ⟨p1, _ | ⟨p2, _ | ⟨p3, _ | ⟨p4, ps⟩⟩⟩⟩ <;>
    rw [hq] at hp <;> dsimp only at hp
  · simp at hp
  · simp at hp
  · split_ifs at hp with hc
    simp only [Bool.and_eq_true, Bool.or_eq_true, beq_iff_eq] at hc
    obtain ⟨⟨⟨hl1, hl2⟩, ha1⟩, ha2⟩ := hc
    simp only [Option.some.injEq, Prod.mk.injEq] at hp
    obtain ⟨hh, hmi, hs⟩ := hp
    have b1 := digitsToNat_le_two p1 hl1 ha1
    have b2 := digitsToNat_le_two p2 (Or.inr hl2) ha2
    omega
  · split_ifs at hp with hc
    simp only [Bool.and_eq_true, Bool.or_eq_true, beq_iff_eq] at hc
    obtain ⟨⟨⟨⟨⟨hl1, hl2⟩, hl3⟩, ha1⟩, ha2⟩, ha3⟩ := hc
    simp only [Option.some.injEq, Prod.mk.injEq] at hp
    obtain ⟨hh, hmi, hs⟩ := hp
    have b1 := digitsToNat_le_two p1 hl1 ha1
    have b2 := digitsToNat_le_two p2 (Or.inr hl2) ha2
    have b3 := digitsToNat_le_two p3 (Or.inr hl3) ha3
    omega
  · simp at hp

theorem getUTC_bounds (t : Int) :
    0 ≤ getUTCHours t ∧ getUTCHours t ≤ 23 ∧ 0 ≤ getUTCMinutes t ∧ getUTCMinutes t ≤ 59
      ∧ 0 ≤ getUTCSeconds t ∧ getUTCSeconds t ≤ 59 := by
  unfold getUTCHours getUTCMinutes getUTCSeconds
  omega

/-- The earlier revision's time extractor coincides definitionally with the
later revision's time parser on string inputs. -/
theorem extractTimeComponents_eq_parseTime :
    Part000.extractTimeComponents = Part001.parseTime := rfl

theorem parseTime_bounds (tz : Int) (s : String) (c : ClockTime)
    (hp : Part001.parseTime tz s = some c) :
    (0 ≤ c.hours ∧ c.hours ≤ 99 ∧ 0 ≤ c.minutes ∧ c.minutes ≤ 99
      ∧ 0 ≤ c.seconds ∧ c.seconds ≤ 99)
    ∧ (hhmmssParts s.toList = none →
        c.hours ≤ 23 ∧ c.minutes ≤ 59 ∧ c.seconds ≤ 59) := by
  unfold Part001.parseTime at hp
  dsimp only at hp
  split at hp
  · exact absurd hp (by simp)
  · split at hp
    · rename_i hN miN sN heq
      simp only [Option.some.injEq] at hp
      have hb := hhmmssParts_bounds s.toList hN miN sN heq
      cases hp
      refine ⟨by dsimp only; omega, fun hnone => ?_⟩
      rw [heq] at hnone
      cases hnone
    · rename_i heq
      split at hp
      · split at hp
        · rename_i t heq2
          simp only [Option.some.injEq] at hp
          have hb := getUTC_bounds t
          cases hp
          exact ⟨by dsimp only; omega, fun _ => by dsimp only; omega⟩
        · exact absurd hp (by simp)
      · exact absurd hp (by simp)

end LeadsCrm

namespace LeadsCrm

theorem string_toList_ne_nil (s : String) (h : s ≠ "") : s.toList ≠ [] := by
  intro hh
  apply h
  cases s with
  | mk data =>
    simp only [String.toList] at hh
    simp [hh]

/-- C10: `sortLeadsByDateTime` (both revisions) returns a permutation of its
input: every lead occurs in the output with the same multiplicity, so no
record is dropped or duplicated, including records with empty or unparseable
date and time fields. -/
theorem c10_sort_perm (tz : Int) (leads : List Lead) :
    (Part001.sortLeadsByDateTime tz leads).Perm leads
      ∧ (Part000.sortLeadsByDateTime tz leads).Perm leads :=
  ⟨List.mergeSort_perm leads _, List.mergeSort_perm leads _⟩

/-- C7: `sortLeadsByDateTime` (both revisions) is idempotent: sorting its own
output yields the same sequence element for element. -/
theorem c7_sort_idempotent (tz : Int) (leads : List Lead) :
    Part001.sortLeadsByDateTime tz (Part001.sortLeadsByDateTime tz leads)
      = Part001.sortLeadsByDateTime tz leads
    ∧ Part000.sortLeadsByDateTime tz (Part000.sortLeadsByDateTime tz leads)
      = Part000.sortLeadsByDateTime tz leads :=
  ⟨mergeSortKey_idem (fun x => Part001.createSortableTimestamp tz x.date x.time) leads,
   mergeSortKey_idem (fun x => Part000.parseDateTime tz x.date x.time) leads⟩

/-- C3: `sortLeadsByDateTime` (both revisions) is stable: for every timestamp
value `k`, the subsequence of leads whose combined date+time timestamp equals
`k` is exactly the same, in the same order, in the output as in the input —
equal-timestamp leads keep their original relative order. -/
theorem c3_sort_stable (tz : Int) (leads : List Lead) (k : Int) :
    (Part001.sortLeadsByDateTime tz leads).filter
        (fun x => decide (Part001.createSortableTimestamp tz x.date x.time = k))
      = leads.filter (fun x => decide (Part001.createSortableTimestamp tz x.date x.time = k))
    ∧ (Part000.sortLeadsByDateTime tz leads).filter
        (fun x => decide (Part000.parseDateTime tz x.date x.time = k))
      = leads.filter (fun x => decide (Part000.parseDateTime tz x.date x.time = k)) :=
  ⟨mergeSortKey_filter _ leads k, mergeSortKey_filter _ leads k⟩

/-- C4: the ISO time string `1899-12-30T06:49:39.000Z` is parsed through the
UTC fields of the instant, yielding ClockTime 6:49:39 for every local
timezone offset of the runtime (both revisions). -/
theorem c4_iso_time_utc (tz : Int) :
    Part001.parseTime tz "1899-12-30T06:49:39.000Z" = some ⟨6, 49, 39⟩
    ∧ Part000.extractTimeComponents tz "1899-12-30T06:49:39.000Z" = some ⟨6, 49, 39⟩ :=
  ⟨rfl, rfl⟩


/-- C1 counterexample: a lead with the parseable pre-epoch date `01/01/1960`
has a negative combined timestamp, so under ascending sort it is placed
BEFORE the sentinel-0 lead with an empty date — refuting the claim that an
empty-date lead sorts before every lead with a parseable date. -/
theorem c1_counterexample_pre_epoch :
    Part001.createSortableTimestamp 0 "01/01/1960" "" < 0
    ∧ Part001.parseDate 0 "01/01/1960" ≠ none
    ∧ Part001.createSortableTimestamp 0 "" "" = 0
    ∧ Part001.sortLeadsByDateTime 0
        [⟨"1", "", "", "", "01/01/1960", ""⟩, ⟨"2", "", "", "", "", ""⟩]
      = [⟨"1", "", "", "", "01/01/1960", ""⟩, ⟨"2", "", "", "", "", ""⟩] := by
  refine ⟨by decide, by decide, by decide, ?_⟩
  exact List.mergeSort_of_sorted (by decide)

/-- C1 (amended): for every lead whose date field is empty or unparseable the
timestamp combiner of either revision returns the sentinel `0` without
throwing (the combiner is a total function), and the ascending sort output is
nondecreasing in the combined timestamp — hence such a lead is placed before
every lead whose parseable date+time yields a positive timestamp, while leads
with pre-epoch (negative-timestamp) dates sort before it. -/
theorem c1_sentinel_amended :
    (∀ tz d t, Part001.parseDate tz d = none → Part001.createSortableTimestamp tz d t = 0)
    ∧ (∀ tz d t, Part000.parseDate tz d = none → Part000.parseDateTime tz d t = 0)
    ∧ (∀ tz leads, (Part001.sortLeadsByDateTime tz leads).Pairwise
        fun a b => Part001.createSortableTimestamp tz a.date a.time
          ≤ Part001.createSortableTimestamp tz b.date b.time)
    ∧ (∀ tz leads, (Part000.sortLeadsByDateTime tz leads).Pairwise
        fun a b => Part000.parseDateTime tz a.date a.time
          ≤ Part000.parseDateTime tz b.date b.time) := by
  refine ⟨?_, ?_, ?_, ?_⟩
  · intro tz d t hn
    unfold Part001.createSortableTimestamp
    rw [hn]
  · intro tz d t hn
    unfold Part000.parseDateTime
    rw [hn]
  · intro tz leads
    exact mergeSortKey_pairwise (fun x => Part001.createSortableTimestamp tz x.date x.time) leads
  · intro tz leads
    exact mergeSortKey_pairwise (fun x => Part000.parseDateTime tz x.date x.time) leads

/-- Witness for the amended C1 at a concrete unparseable date. -/
theorem c1_witness :
    Part001.createSortableTimestamp 0 "nope" "" = 0
    ∧ Part000.parseDateTime 0 "nope" "" = 0 :=
  ⟨c1_sentinel_amended.1 0 "nope" "" (by decide),
   c1_sentinel_amended.2.1 0 "nope" "" (by decide)⟩

/-- C2 counterexample: the valid one-digit-day input `5/2/2026` is reformatted
with zero padding, so parse-then-format is not the identity on all valid
`DD/MM/YYYY` strings with 1-2 digit day and month. -/
theorem c2_counterexample_padding :
    Part001.formatDate 0 "5/2/2026" = "05/02/2026"
    ∧ Part000.formatDate 0 "5/2/2026" = "05/02/2026"
    ∧ ("05/02/2026" : String) ≠ "5/2/2026" :=
  ⟨by decide, by decide, by decide⟩

/-- C2 (amended): on strict `DD/MM/YYYY` strings — exactly two-digit day and
month, four-digit year of value at least 1000, denoting an existing calendar
date — `formatDate` of either revision is the identity, for every timezone
offset. -/
theorem c2_strict_identity (tz : Int) (s : String)
    (h : isStrictDdMmYyyy s.toList = true) :
    Part001.formatDate tz s = s ∧ Part000.formatDate tz s = s :=
  strict_formatDate_id tz s h

/-- Witness for the amended C2 at a concrete strict date string. -/
theorem c2_witness :
    isStrictDdMmYyyy (String.toList "25/02/2026") = true
    ∧ Part001.formatDate 0 "25/02/2026" = "25/02/2026"
    ∧ Part000.formatDate 0 "25/02/2026" = "25/02/2026" :=
  ⟨by decide, (c2_strict_identity 0 "25/02/2026" (by decide)).1,
   (c2_strict_identity 0 "25/02/2026" (by decide)).2⟩

/-- C6 counterexample: the earlier revision's formatters echo a non-empty
unparseable input instead of returning the placeholder. -/
theorem c6_counterexample_echo :
    Part000.parseDate 0 "hello" = none
    ∧ Part000.formatDate 0 "hello" = "hello"
    ∧ Part000.extractTimeComponents 0 "junk" = none
    ∧ Part000.formatTime 0 "junk" = "junk"
    ∧ ("hello" : String) ≠ "-" :=
  ⟨by decide, by decide, by decide, by decide, by decide⟩

/-- C6 (amended): the later revision's formatters return the placeholder `-`
for absent or unparseable input; the earlier revision's formatters return `-`
only for absent input and echo a non-empty unparseable input unchanged. -/
theorem c6_placeholder_amended (tz : Int) (s : String) :
    (Part001.parseDate tz s = none → Part001.formatDate tz s = "-")
    ∧ (Part001.parseTime tz s = none → Part001.formatTime tz s = "-")
    ∧ (s ≠ "" → Part000.parseDate tz s = none → Part000.formatDate tz s = s)
    ∧ (s ≠ "" → Part000.extractTimeComponents tz s = none → Part000.formatTime tz s = s)
    ∧ Part001.formatDate tz "" = "-" ∧ Part001.formatTime tz "" = "-"
    ∧ Part000.formatDate tz "" = "-" ∧ Part000.formatTime tz "" = "-" := by
  refine ⟨?_, ?_, ?_, ?_, rfl, rfl, rfl, rfl⟩
  · intro hn
    unfold Part001.formatDate
    rw [hn]
    split <;> rfl
  · intro hn
    unfold Part001.formatTime
    rw [hn]
    split <;> rfl
  · intro hs hn
    unfold Part000.formatDate
    rw [hn]
    rw [if_neg ?_]
    intro hq
    exact string_toList_ne_nil s hs (by simpa using hq)
  · intro hs hn
    unfold Part000.formatTime
    rw [hn]
    rw [if_neg ?_]
    intro hq
    exact string_toList_ne_nil s hs (by simpa using hq)

/-- Witness for the amended C6 at concrete unparseable inputs. -/
theorem c6_witness :
    Part001.formatDate 0 "hello" = "-" ∧ Part000.formatDate 0 "hello" = "hello" :=
  ⟨(c6_placeholder_amended 0 "hello").1 (by decide),
   (c6_placeholder_amended 0 "hello").2.2.1 (by decide) (by decide)⟩

/-- C9 counterexample: the literal pattern admits `99:99`, whose parsed
components lie far outside the documented 0-23 / 0-59 ranges. -/
theorem c9_counterexample_range :
    Part001.parseTime 0 "99:99" = some ⟨99, 99, 0⟩
    ∧ Part000.extractTimeComponents 0 "99:99" = some ⟨99, 99, 0⟩
    ∧ ¬ ((99 : Int) ≤ 23) :=
  ⟨by decide, by decide, by decide⟩

/-- C9 (amended): every ClockTime produced by the time parsers (both
revisions) has components in 0..99 — the literal `HH:MM[:SS]` branch copies
the 1-2 digit values unvalidated — and when the input does NOT match the
literal pattern (the ISO branch), the components lie in the documented ranges
hours 0-23, minutes 0-59, seconds 0-59. -/
theorem c9_time_bounds_amended (tz : Int) (s : String) (c : ClockTime) :
    (Part001.parseTime tz s = some c →
      (0 ≤ c.hours ∧ c.hours ≤ 99 ∧ 0 ≤ c.minutes ∧ c.minutes ≤ 99
        ∧ 0 ≤ c.seconds ∧ c.seconds ≤ 99)
      ∧ (hhmmssParts s.toList = none →
          c.hours ≤ 23 ∧ c.minutes ≤ 59 ∧ c.seconds ≤ 59))
    ∧ (Part000.extractTimeComponents tz s = some c →
      (0 ≤ c.hours ∧ c.hours ≤ 99 ∧ 0 ≤ c.minutes ∧ c.minutes ≤ 99
        ∧ 0 ≤ c.seconds ∧ c.seconds ≤ 99)
      ∧ (hhmmssParts s.toList = none →
          c.hours ≤ 23 ∧ c.minutes ≤ 59 ∧ c.seconds ≤ 59)) := by
  constructor
  · exact fun hp => parseTime_bounds tz s c hp
  · intro hp
    rw [extractTimeComponents_eq_parseTime] at hp
    exact parseTime_bounds tz s c hp

/-- Witness for the amended C9 at a concrete ISO input. -/
theorem c9_witness :
    (6 : Int) ≤ 23 ∧ (49 : Int) ≤ 59 ∧ (39 : Int) ≤ 59 :=
  ((c9_time_bounds_amended 0 "1899-12-30T06:49:39.000Z" ⟨6, 49, 39⟩).1 (by decide)).2
    (by decide)


/-- C5 counterexample: with the supplied project query `all` the filter keeps
a lead whose `projectName` is `X`, so not every output lead's project equals
the supplied query — `all` is an undocumented pass-everything sentinel. -/
theorem c5_counterexample_all_sentinel :
    Part001.filterLeads 0 [⟨"1", "n", "X", "", "", ""⟩] ⟨"", "all", none⟩
      = [⟨"1", "n", "X", "", "", ""⟩]
    ∧ Part000.filterLeads 0 [⟨"1", "n", "X", "", "", ""⟩] ⟨"", "all", none⟩
      = [⟨"1", "n", "X", "", "", ""⟩]
    ∧ ("X" : String) ≠ "all" :=
  ⟨by decide, by decide, by decide⟩

/-- C5 (amended): `filterLeads` (both revisions) AND-combines its criteria,
treats an absent or empty criterion — and the project sentinel `all` — as
always satisfied, and returns a subsequence of its input (order preserved).
Every output lead satisfies the supplied name-substring criterion; its
`projectName` equals the project query exactly whenever that query is neither
empty nor `all`; and in the later revision every output lead also matches a
supplied calendar-date criterion on local year/month/day, while the earlier
revision exempts leads whose own date is unparseable. -/
theorem c5_filter_amended (tz : Int) (leads : List Lead) (filters : Filters) :
    (Part001.filterLeads tz leads filters).Sublist leads
    ∧ (Part000.filterLeads tz leads filters).Sublist leads
    ∧ (∀ lead ∈ Part001.filterLeads tz leads filters,
        (filters.searchName ≠ "" →
          containsSub (lowerList lead.name.toList) (lowerList filters.searchName.toList) = true)
        ∧ (filters.project ≠ "" → filters.project ≠ "all" →
            lead.projectName = filters.project)
        ∧ (∀ fd, filters.date = some fd → ∃ ld, Part001.parseDate tz lead.date = some ld
            ∧ getFullYear tz ld = getFullYear tz fd ∧ getMonth tz ld = getMonth tz fd
            ∧ getDate tz ld = getDate tz fd))
    ∧ (∀ lead ∈ Part000.filterLeads tz leads filters,
        (filters.searchName ≠ "" →
          containsSub (lowerList lead.name.toList) (lowerList filters.searchName.toList) = true)
        ∧ (filters.project ≠ "" → filters.project ≠ "all" →
            lead.projectName = filters.project)) := by
  refine ⟨List.filter_sublist leads, List.filter_sublist leads, ?_, ?_⟩
  · intro lead hmem
    have hpass := (List.mem_filter.mp hmem).2
    unfold Part001.leadPasses at hpass
    split_ifs at hpass with h1 h2
    refine ⟨?_, ?_, ?_⟩
    · intro hsn
      have hemp := list_isEmpty_false _ (string_toList_ne_nil _ hsn)
      cases hb : containsSub (lowerList lead.name.toList) (lowerList filters.searchName.toList)
      · exact absurd ⟨hemp, hb⟩ h1
      · rfl
    · intro hp1 hp2
      have hemp := list_isEmpty_false _ (string_toList_ne_nil _ hp1)
      by_cases hq : lead.projectName = filters.project
      · exact hq
      · exact absurd ⟨hemp, hp2, hq⟩ h2
    · intro fd hfd
      rw [hfd] at hpass
      cases hld : Part001.parseDate tz lead.date
      · rw [hld] at hpass
        exact absurd hpass (by simp)
      · rename_i ld
        rw [hld] at hpass
        dsimp only at hpass
        split_ifs at hpass with hc
        push_neg at hc
        exact ⟨ld, rfl, hc.1, hc.2.1, hc.2.2⟩
  · intro lead hmem
    have hpass := (List.mem_filter.mp hmem).2
    unfold Part000.leadPasses at hpass
    split_ifs at hpass with h1 h2
    refine ⟨?_, ?_⟩
    · intro hsn
      have hemp := list_isEmpty_false _ (string_toList_ne_nil _ hsn)
      cases hb : containsSub (lowerList lead.name.toList) (lowerList filters.searchName.toList)
      · exact absurd ⟨hemp, hb⟩ h1
      · rfl
    · intro hp1 hp2
      have hemp := list_isEmpty_false _ (string_toList_ne_nil _ hp1)
      by_cases hq : lead.projectName = filters.project
      · exact hq
      · exact absurd ⟨hemp, hp2, hq⟩ h2

/-- Witness for the amended C5 at a concrete matching lead. -/
theorem c5_witness :
    containsSub (lowerList (String.toList "name")) (lowerList (String.toList "n")) = true
    ∧ (⟨"1", "name", "X", "", "", ""⟩ : Lead).projectName = "X" := by
  have h := (c5_filter_amended 0 [⟨"1", "name", "X", "", "", ""⟩]
      ⟨"n", "X", none⟩).2.2.1 ⟨"1", "name", "X", "", "", ""⟩ (by decide)
  exact ⟨h.1 (by decide), h.2.1 (by decide) (by decide)⟩

end LeadsCrm
